import Mathlib

/-!
Verification of the eCFR analyzer's data-ingestion and derived-metrics
pipeline, as a shallow embedding of the Go source in Lean 4.

The embedding covers:
* the word-count algorithm (`ImportService.calculateWordCount`),
* the agency-checksum algorithm and its change detection
  (`calculateAndStoreAgencyChecksum`, `calculateBatchAgencyChecksumsOptimized`),
* the import-status state machine (`markStepComplete` and friends),
* the title-content store step (`downloadAndProcessTitle`),
* the historical snapshot capture (`HistoricalService.CaptureSnapshot`),
* the content-download strategy chain (`ContentDownloader.DownloadTitleContent`),
* the historical trend computation (`getOverallHistory` / `getAgencyHistory`).

Strings are modelled at the level of their character lists; Go's
`unicode.IsSpace` and the regexp class `\s` are modelled on the ASCII
white-space characters they contain (the two classes differ: `\s` does not
match `\v`, `unicode.IsSpace` does — the model keeps both classes separate,
exactly as the source mixes them).  SHA-256 is modelled as an explicit hash
parameter: every theorem that needs nothing beyond functionality holds for
every hash function, and the single property that relies on SHA-256 being
collision-free takes injectivity of the hash as an explicit hypothesis.
Database rows are modelled as lists of records and GORM's `FirstOrCreate`
as the find-or-append operation it performs (it does not update a found
row).
-/

namespace ECFR

/-! ## Word counting (`ImportService.calculateWordCount`) -/

/-- The character class of Go's regexp `\s`, namely `[\t\n\f\r ]`.
Note that it does not contain `\v` (U+000B). -/
def isRegexSpace (c : Char) : Bool :=
  c = ' ' ∨ c = '\t' ∨ c = '\n' ∨ c = '\x0c' ∨ c = '\r'

/-- The ASCII part of Go's `unicode.IsSpace`, used by `strings.TrimSpace`
and `strings.Fields`: `[\t\n\v\f\r ]`. -/
def isFieldsSpace (c : Char) : Bool :=
  c = ' ' ∨ c = '\t' ∨ c = '\n' ∨ c = '\x0b' ∨ c = '\x0c' ∨ c = '\r'

/-- One left-to-right pass of `re.ReplaceAllString(xmlContent, " ")` for
`re = <[^>]*>`: each leftmost, non-overlapping match — a `<`, then the
characters up to the first following `>`, then that `>` — is replaced by a
single space.  The first argument holds the characters read since the last
pending `<` (in reverse), `none` when no `<` is pending; a pending `<`
whose `>` never arrives matches nothing, so its text is emitted verbatim
at the end, exactly as the regexp engine leaves it. -/
def stripTagsGo : Option (List Char) → List Char → List Char
  | none, [] => []
  | some buf, [] => '<' :: buf.reverse
  | none, c :: cs => if c = '<' then stripTagsGo (some []) cs else c :: stripTagsGo none cs
  | some buf, c :: cs =>
    if c = '>' then ' ' :: stripTagsGo none cs else stripTagsGo (some (c :: buf)) cs

/-- `re.ReplaceAllString(xmlContent, " ")` for `re` matching `<[^>]*>`. -/
def stripTags (l : List Char) : List Char :=
  stripTagsGo none l

/-- `strings.TrimSpace`: drop white space (per `unicode.IsSpace`) from both
ends. -/
def trimSpace (l : List Char) : List Char :=
  ((l.dropWhile isFieldsSpace).reverse.dropWhile isFieldsSpace).reverse

/-- `regexp.MustCompile(` with pattern `\s+` and
`).ReplaceAllString(text, " ")`: every maximal run of `\s` characters
becomes one space.  The Boolean records whether the previous character was
part of a `\s` run. -/
def collapseSpacesGo : Bool → List Char → List Char
  | _, [] => []
  | inRun, c :: cs =>
    if isRegexSpace c then
      if inRun then collapseSpacesGo true cs else ' ' :: collapseSpacesGo true cs
    else c :: collapseSpacesGo false cs

/-- Replacement of every maximal `\s+` run by a single space. -/
def collapseSpaces (l : List Char) : List Char :=
  collapseSpacesGo false l

/-- `len(strings.Fields(text))`: the number of maximal runs of
non-white-space characters.  The Boolean records whether the previous
character was part of a field. -/
def fieldsCountGo : Bool → List Char → Nat
  | _, [] => 0
  | inField, c :: cs =>
    if isFieldsSpace c then fieldsCountGo false cs
    else if inField then fieldsCountGo true cs else 1 + fieldsCountGo true cs

/-- The number of fields `strings.Fields` splits a string into. -/
def fieldsCount (l : List Char) : Nat :=
  fieldsCountGo false l

/-- `ImportService.calculateWordCount`: strip tags, trim, collapse white
space, then count fields — with the source's explicit guard returning `0`
for the empty normalized text. -/
def calculateWordCount (xmlContent : String) : Nat :=
  let text := collapseSpaces (trimSpace (stripTags xmlContent.data))
  if text = [] then 0 else fieldsCount text

/-- Word count as the spec words it: strip all markup-style tags, collapse
consecutive white space to single spaces after trimming, split on white
space, count the resulting tokens. -/
def specWordCount (xmlContent : String) : Nat :=
  fieldsCount (collapseSpaces (trimSpace (stripTags xmlContent.data)))

/-! ## Agency checksums (`calculateAndStoreAgencyChecksum`,
`calculateBatchAgencyChecksumsOptimized`) -/

/-- One line of the checksum input, `fmt.Sprintf("TITLE_%d:%s\n", n, c)`. -/
def titleLine (n : Nat) (c : String) : String :=
  "TITLE_" ++ toString n ++ ":" ++ c ++ "\n"

/-- The `strings.Builder` loop writing one `titleLine` per
(title number, checksum) pair, in list order. -/
def buildAgencyContent (l : List (Nat × String)) : String :=
  l.foldl (fun acc tc => acc ++ titleLine tc.1 tc.2) ""

/-- The SQL `ORDER BY t.number ASC` applied to the fetched
(title number, checksum) pairs, modelled as an insertion sort on the title
number.  The SQL order is unspecified between rows with equal title
numbers; the insertion sort realizes one such order. -/
def orderByTitleNumber (l : List (Nat × String)) : List (Nat × String) :=
  List.insertionSort (fun p q => p.1 ≤ q.1) l

/-- The SQL filter `tc.checksum IS NOT NULL AND tc.checksum != ''` applied
to the joined (title number, nullable checksum) rows of an agency. -/
def qualifyingChecksums (rows : List (Nat × Option String)) : List (Nat × String) :=
  rows.filterMap fun r =>
    match r.2 with
    | none => none
    | some c => if c = "" then none else some (r.1, c)

/-- The agency checksum of a list of (title number, checksum) pairs: sort
by title number ascending, build one `TITLE_<n>:<checksum>\n` line per
pair, hash the concatenation.  `hash` stands for hex-encoded SHA-256. -/
def agencyChecksum (hash : String → String) (pairs : List (Nat × String)) : String :=
  hash (buildAgencyContent (orderByTitleNumber pairs))

/-- A list of (title number, checksum) pairs in which the checksum is a
function of the title number, as is the case for the rows of one agency. -/
def pairsOf (ns : List Nat) (c : Nat → String) : List (Nat × String) :=
  ns.map fun n => (n, c n)

/-- The stored `AgencyChecksum` record of one agency: the aggregate
checksum plus the content hash used for change detection. -/
structure AgencyChecksumRow where
  checksum : String
  contentHash : String
deriving DecidableEq

/-- `calculateAndStoreAgencyChecksum` for one agency: `rows` are the
joined (title number, nullable checksum) rows the SQL query sees (it
filters the null and empty checksums and orders by title number), `stored`
is the agency's current `AgencyChecksum` record if any.  Returns the
outcome string and the new stored record. -/
def calculateAndStoreAgencyChecksum (hash : String → String)
    (rows : List (Nat × Option String)) (stored : Option AgencyChecksumRow) :
    String × Option AgencyChecksumRow :=
  let titleChecksums := orderByTitleNumber (qualifyingChecksums rows)
  if titleChecksums = [] then
    ("skipped", stored)
  else
    let contentHash := hash (buildAgencyContent titleChecksums)
    let agencyChecksumValue := hash (buildAgencyContent titleChecksums)
    match stored with
    | some existing =>
      if existing.contentHash = contentHash then
        ("skipped", stored)
      else
        ("updated", some ⟨agencyChecksumValue, contentHash⟩)
    | none => ("created", some ⟨agencyChecksumValue, contentHash⟩)

/-! ## Import status (`ImportService`) -/

/-- The `ImportStatus` record, without its `lastUpdated` timestamp.
`progress` is a Go `int`; the values the code produces are non-negative,
so it is modelled as `Nat`. -/
structure ImportStatus where
  isLoading : Bool
  currentStep : String
  progress : Nat
  error : String
  totalTitles : Nat
  currentTitle : Nat
  overallStep : Nat
  totalSteps : Nat
  agenciesDone : Bool
  titlesDone : Bool
  referencesDone : Bool
  contentDone : Bool
  historicalDone : Bool
deriving DecidableEq

/-- The status record `NewImportService` starts from. -/
def newImportStatus : ImportStatus where
  isLoading := false
  currentStep := "Ready"
  progress := 0
  error := ""
  totalTitles := 0
  currentTitle := 0
  overallStep := 0
  totalSteps := 4
  agenciesDone := false
  titlesDone := false
  referencesDone := false
  contentDone := false
  historicalDone := false

/-- `ImportService.updateStatus`. -/
def updateStatus (step : String) (progress : Nat) (err : String)
    (st : ImportStatus) : ImportStatus :=
  { st with currentStep := step, progress := progress, error := err }

/-- `ImportService.setLoading`. -/
def setLoading (loading : Bool) (st : ImportStatus) : ImportStatus :=
  { st with isLoading := loading }

/-- `ImportService.setOverallStep`. -/
def setOverallStep (step : Nat) (description : String) (st : ImportStatus) :
    ImportStatus :=
  { st with overallStep := step, currentStep := description, isLoading := true }

/-- The `completedSteps` tally in `markStepComplete`: it counts all five
done flags, `referencesDone` included. -/
def completedStepCount (st : ImportStatus) : Nat :=
  (if st.agenciesDone then 1 else 0) + (if st.titlesDone then 1 else 0) +
    (if st.referencesDone then 1 else 0) + (if st.contentDone then 1 else 0) +
    (if st.historicalDone then 1 else 0)

/-- The `switch stepName` block of `markStepComplete`. -/
def setStepFlag (stepName : String) (st : ImportStatus) : ImportStatus :=
  if stepName = "agencies" then { st with agenciesDone := true }
  else if stepName = "titles" then { st with titlesDone := true }
  else if stepName = "references" then { st with referencesDone := true }
  else if stepName = "content" then { st with contentDone := true }
  else if stepName = "historical" then { st with historicalDone := true }
  else st

/-- `ImportService.markStepComplete`: set the named flag, recompute
`progress` as `int(float64(completedSteps) / float64(totalSteps) * 100)`
(exact in binary floating point for `completedSteps ≤ 5` and
`totalSteps = 4`, hence `completedSteps * 100 / totalSteps` on `Nat`), and
flip `isLoading` off with the completion message when the tally reaches
`totalSteps`. -/
def markStepComplete (stepName : String) (st : ImportStatus) : ImportStatus :=
  let st1 := setStepFlag stepName st
  let completedSteps := completedStepCount st1
  let st2 := { st1 with progress := completedSteps * 100 / st1.totalSteps }
  if completedSteps = st2.totalSteps then
    { st2 with isLoading := false, currentStep := "All imports completed" }
  else st2

/-! ## Title content storage (`downloadAndProcessTitle`) -/

/-- One `TitleContent` row; dates are abstracted to `Nat` day numbers. -/
structure TitleContentRow where
  titleId : Nat
  contentDate : Nat
  xmlContent : String
  wordCount : Option Int
  checksum : Option String
deriving DecidableEq

/-- GORM's `Where("title_id = ? AND content_date = ?").FirstOrCreate`:
when a row with the key exists the call only reads it — no field of the
found row is written — otherwise the new row is inserted. -/
def firstOrCreateTitleContent (db : List TitleContentRow) (row : TitleContentRow) :
    List TitleContentRow :=
  if db.any (fun r => r.titleId = row.titleId ∧ r.contentDate = row.contentDate) then db
  else db ++ [row]

/-- The store step of `ImportService.downloadAndProcessTitle` for a
successfully downloaded `content`: compute word count and checksum
(`calculateChecksum` is SHA-256 of the content, modelled by `hash`), then
`FirstOrCreate` the row keyed on (title, date). -/
def downloadAndProcessTitle (hash : String → String) (db : List TitleContentRow)
    (titleId contentDate : Nat) (content : String) : List TitleContentRow :=
  let wordCount : Int := calculateWordCount content
  let checksum := hash content
  firstOrCreateTitleContent db ⟨titleId, contentDate, content, some wordCount, some checksum⟩

/-! ## Historical snapshots (`HistoricalService.CaptureSnapshot`) -/

/-- One `HistoricalSnapshot` row. -/
structure SnapshotRow where
  snapshotDate : Nat
  agencyId : Option Nat
  titleId : Option Nat
  wordCount : Int
  checksum : Option String
deriving DecidableEq

/-- The dedup key of `HistoricalSnapshot`: the
(date, agency-or-null, title-or-null) triple. -/
def sameSnapshotKey (r s : SnapshotRow) : Bool :=
  r.snapshotDate = s.snapshotDate ∧ r.agencyId = s.agencyId ∧ r.titleId = s.titleId

/-- GORM `FirstOrCreate` on the snapshot key: append the row only when no
row with its key exists. -/
def firstOrCreateSnapshot (snaps : List SnapshotRow) (row : SnapshotRow) :
    List SnapshotRow :=
  if snaps.any (sameSnapshotKey row) then snaps else snaps ++ [row]

/-- A sequence of `FirstOrCreate` calls. -/
def upsertSnapshots (snaps : List SnapshotRow) (rows : List SnapshotRow) :
    List SnapshotRow :=
  rows.foldl firstOrCreateSnapshot snaps

/-- `MAX(content_date)` over `title_contents` (0 for an empty table). -/
def latestContentDate (contents : List TitleContentRow) : Nat :=
  (contents.map (·.contentDate)).foldl max 0

/-- `COALESCE(SUM(word_count), 0)` over the rows of one date. -/
def overallWordCount (contents : List TitleContentRow) (d : Nat) : Int :=
  ((contents.filter (fun r => r.contentDate = d)).map (fun r => r.wordCount.getD 0)).sum

/-- The per-agency sum of the `LEFT JOIN` of CFR references with the title
contents of date `d` (`refs` is the `agency_cfr_references` table as
(agency id, title id) pairs). -/
def agencyWordCount (refs : List (Nat × Nat)) (contents : List TitleContentRow)
    (d : Nat) (a : Nat) : Int :=
  ((refs.filter (fun rf => rf.1 = a)).map (fun rf =>
    ((contents.filter (fun r => r.titleId = rf.2 ∧ r.contentDate = d)).map
      (fun r => r.wordCount.getD 0)).sum)).sum

/-- The single row `captureOverallSnapshot` upserts. -/
def overallRows (contents : List TitleContentRow) (d : Nat) : List SnapshotRow :=
  [⟨d, none, none, overallWordCount contents d, none⟩]

/-- The rows `captureAgencySnapshots` upserts: one per agency with a
nonzero word-count sum (`if awc.WordCount == 0 { continue }`). -/
def agencyRows (agencies : List Nat) (refs : List (Nat × Nat))
    (contents : List TitleContentRow) (d : Nat) : List SnapshotRow :=
  (agencies.filter (fun a => ¬ agencyWordCount refs contents d a = 0)).map fun a =>
    ⟨d, some a, none, agencyWordCount refs contents d a, none⟩

/-- The rows `captureTitleSnapshots` upserts: one per title-content row of
date `d` whose word count is present and nonzero, carrying the document
checksum along. -/
def titleRows (contents : List TitleContentRow) (d : Nat) : List SnapshotRow :=
  ((contents.filter (fun r => r.contentDate = d)).filter
    (fun r => ¬ (r.wordCount = none ∨ r.wordCount = some 0))).map fun r =>
      ⟨d, none, some r.titleId, r.wordCount.getD 0, r.checksum⟩

/-- `HistoricalService.captureOverallSnapshot`. -/
def captureOverallSnapshot (contents : List TitleContentRow) (d : Nat)
    (snaps : List SnapshotRow) : List SnapshotRow :=
  upsertSnapshots snaps (overallRows contents d)

/-- `HistoricalService.captureAgencySnapshots`. -/
def captureAgencySnapshots (agencies : List Nat) (refs : List (Nat × Nat))
    (contents : List TitleContentRow) (d : Nat) (snaps : List SnapshotRow) :
    List SnapshotRow :=
  upsertSnapshots snaps (agencyRows agencies refs contents d)

/-- `HistoricalService.captureTitleSnapshots`. -/
def captureTitleSnapshots (contents : List TitleContentRow) (d : Nat)
    (snaps : List SnapshotRow) : List SnapshotRow :=
  upsertSnapshots snaps (titleRows contents d)

/-- `HistoricalService.CaptureSnapshot`: determine the latest content
date, then upsert the overall, per-agency and per-title snapshots for that
date, in that order. -/
def captureSnapshot (agencies : List Nat) (refs : List (Nat × Nat))
    (contents : List TitleContentRow) (snaps : List SnapshotRow) : List SnapshotRow :=
  let d := latestContentDate contents
  captureTitleSnapshots contents d
    (captureAgencySnapshots agencies refs contents d
      (captureOverallSnapshot contents d snaps))

/-! ## Content download strategy chain (`ContentDownloader`) -/

/-- The loop of `ContentDownloader.DownloadTitleContent`, carrying
`lastErr`.  Each strategy is its `DownloadTitleContent` operation; with an
empty strategy list the Go code returns `("", nil)`, i.e. success with
empty content. -/
def downloadLoop (titleNumber : Nat) (lastErr : Option String) :
    List (Nat → Except String String) → Except String String
  | [] =>
    match lastErr with
    | some e => .error e
    | none => .ok ""
  | strategy :: rest =>
    match strategy titleNumber with
    | .ok content => .ok content
    | .error e => downloadLoop titleNumber (some e) rest

/-- `ContentDownloader.DownloadTitleContent`: try each strategy in order,
return the first success, else the last observed error. -/
def downloadTitleContent (strategies : List (Nat → Except String String))
    (titleNumber : Nat) : Except String String :=
  downloadLoop titleNumber none strategies

/-- `NewContentDownloader`: the strategies in preferred order — bulk
download first, then the API client. -/
def newContentDownloader (bulk api : Nat → Except String String) :
    List (Nat → Except String String) :=
  [bulk, api]

/-! ## Historical trend computation (`getOverallHistory` /
`getAgencyHistory`) -/

/-- One `HistoricalPoint` of the trend response.  Go's `float64` change
percentage is modelled by exact rationals. -/
structure HistoricalPoint where
  date : String
  wordCount : Int
  changePercent : ℚ
deriving DecidableEq

/-- The conversion loop shared by `getOverallHistory` and
`getAgencyHistory`: walk the date-ordered snapshot rows carrying the
previous word count; the change percent is
`float64(cur-prev) / float64(prev) * 100` when a previous point exists
with positive word count, and the `float64` zero value otherwise. -/
def historyPointsGo (prev : Option Int) : List (String × Int) → List HistoricalPoint
  | [] => []
  | (d, w) :: rest =>
    let changePercent : ℚ :=
      match prev with
      | some p => if p > 0 then ((w - p : Int) : ℚ) / ((p : Int) : ℚ) * 100 else 0
      | none => 0
    ⟨d, w, changePercent⟩ :: historyPointsGo (some w) rest

/-- The snapshot-to-point conversion applied to the query result, which
arrives ordered by snapshot date ascending (`ORDER BY snapshot_date ASC`). -/
def getHistoryPoints (snapshots : List (String × Int)) : List HistoricalPoint :=
  historyPointsGo none snapshots

/-! ## The import pipeline's status trace

The successful `LoadAllData` run mutates the status record in this order
(`ImportAgencies` then `ImportTitles`, which chains content and historical
import); only the calls that touch flags, `isLoading` or `progress` matter
here, and the per-item `updateStatus`/`incrementProgress` calls in between
do not change any done flag. -/

/-- The status right after `markStepComplete("content")` in a
`LoadAllData` run: agencies, references, titles and content are done, the
historical step has not run yet. -/
def statusAfterContentStep : ImportStatus :=
  markStepComplete "content"
    (updateStatus "Content import completed" 100 ""
      (setOverallStep 3 "Importing content"
        (markStepComplete "titles"
          (setOverallStep 2 "Importing titles"
            (markStepComplete "references"
              (markStepComplete "agencies"
                (setOverallStep 1 "Importing agencies"
                  (setLoading true newImportStatus))))))))

/-- The status right after `markStepComplete("historical")`, the next
flag-touching call of the same run. -/
def statusAfterHistoricalStep : ImportStatus :=
  markStepComplete "historical"
    (setOverallStep 4 "Creating historical snapshots" statusAfterContentStep)

end ECFR

namespace ECFR

/-! ## Theorems -/

/-- C7: for every title number the content downloader built by
`NewContentDownloader` tries the bulk strategy first and the API client
second, returns the content of the first strategy that succeeds, and when
both fail returns the last observed error (the API client's). -/
theorem downloadTitleContent_strategy_chain
    (bulk api : Nat → Except String String) (titleNumber : Nat) :
    downloadTitleContent (newContentDownloader bulk api) titleNumber =
      match bulk titleNumber with
      | .ok content => .ok content
      | .error _ =>
        match api titleNumber with
        | .ok content => .ok content
        | .error e => .error e := by
  cases hb : bulk titleNumber <;> cases ha : api titleNumber <;>
    simp [downloadTitleContent, newContentDownloader, downloadLoop, hb, ha]

/-- C2 (failing-input evaluation): in the pipeline's own call order, right
after the content step completes, `markStepComplete` has already flipped
`isLoading` to `false` and set the completion message although
`historicalDone` is still `false` — because the tally also counts
`referencesDone`, so it reaches `totalSteps = 4` one step early; and when
the historical step then completes, the tally is 5, `isLoading` stays
`true` (5 ≠ 4) and `progress` becomes 125. -/
theorem markStepComplete_completes_before_historical :
    statusAfterContentStep.isLoading = false ∧
    statusAfterContentStep.historicalDone = false ∧
    statusAfterContentStep.currentStep = "All imports completed" ∧
    statusAfterContentStep.progress = 100 ∧
    statusAfterHistoricalStep.isLoading = true ∧
    statusAfterHistoricalStep.historicalDone = true ∧
    statusAfterHistoricalStep.progress = 125 := by
  decide

/-- C3 (failing-input evaluation): storing content for the same title on
the same date twice keeps the row of the FIRST download unchanged —
GORM's `FirstOrCreate` finds the existing (title, date) row and writes
nothing — so after re-importing different content the stored row still
holds the old content, word count and checksum.  (The claim's other half
does hold here: no second row for the key is created.) -/
theorem downloadAndProcessTitle_reimport_keeps_old_row :
    downloadAndProcessTitle id
        (downloadAndProcessTitle id [] 1 0 "<p>old</p>") 1 0 "<p>new content</p>" =
      [⟨1, 0, "<p>old</p>", some 1, some "<p>old</p>"⟩] := by
  decide

/-- C4: the computed word count equals the spec's token count — the
number of white-space-separated tokens left after tag stripping, trimming
and white-space collapsing — a document with no text left after tag
stripping and trimming has word count 0, and `<a>hello world</a>` has word
count 2. -/
theorem calculateWordCount_counts_tokens :
    (∀ s : String, calculateWordCount s = specWordCount s) ∧
    (∀ s : String, trimSpace (stripTags s.data) = [] → calculateWordCount s = 0) ∧
    calculateWordCount "<a>hello world</a>" = 2 := by
  refine ⟨fun s => ?_, fun s h => ?_, by decide⟩
  · by_cases h : collapseSpaces (trimSpace (stripTags s.data)) = []
    · simp [calculateWordCount, specWordCount, h, fieldsCount, fieldsCountGo]
    · simp [calculateWordCount, specWordCount, h]
  · simp [calculateWordCount, h, collapseSpaces, collapseSpacesGo]

/-- Witness for C4 at `s = "<a> \t </a>"`, which strips and trims to
nothing. -/
theorem calculateWordCount_counts_tokens_witness :
    calculateWordCount "<a> \t </a>" = 0 :=
  calculateWordCount_counts_tokens.2.1 "<a> \t </a>" (by decide)

theorem stripTagsGo_append_of_no_lt (l r : List Char) (h : '<' ∉ l) :
    stripTagsGo none (l ++ r) = l ++ stripTagsGo none r := by
  induction l with
  | nil => simp
  | cons c cs ih =>
    simp only [List.mem_cons, not_or] at h
    have hc : c ≠ '<' := fun e => h.1 e.symm
    simp [stripTagsGo, hc, ih h.2]

theorem stripTagsGo_closes_tag (t r : List Char) (buf : List Char) (h : '>' ∉ t) :
    stripTagsGo (some buf) (t ++ '>' :: r) = ' ' :: stripTagsGo none r := by
  induction t generalizing buf with
  | nil => simp [stripTagsGo]
  | cons c cs ih =>
    simp only [List.mem_cons, not_or] at h
    have hc : c ≠ '>' := fun e => h.1 e.symm
    simp [stripTagsGo, hc, ih _ h.2]

/-- C10: every tag match is replaced by a single space rather than
deleted: for text `l` with no `<` and tag interior `t` with no `>`,
stripping `l<t>r` yields `l`, one space, then the stripped `r` — so the
text before a tag and the text after it never merge into one token — and
in particular `foo<b>bar</b>` has word count 2. -/
theorem stripTags_replaces_tag_with_space :
    (∀ l t r : List Char, '<' ∉ l → '>' ∉ t →
      stripTags (l ++ '<' :: (t ++ '>' :: r)) = l ++ ' ' :: stripTags r) ∧
    calculateWordCount "foo<b>bar</b>" = 2 := by
  constructor
  · intro l t r hl ht
    unfold stripTags
    rw [stripTagsGo_append_of_no_lt l _ hl]
    congr 1
    simp [stripTagsGo, stripTagsGo_closes_tag t r [] ht]
  · decide

/-- Witness for C10: the general part applied at `foo`, `b`, `bar</b>`. -/
theorem stripTags_replaces_tag_with_space_witness :
    stripTags ("foo".data ++ '<' :: ("b".data ++ '>' :: "bar</b>".data)) =
      "foo".data ++ ' ' :: stripTags "bar</b>".data :=
  stripTags_replaces_tag_with_space.1 "foo".data "b".data "bar</b>".data
    (by decide) (by decide)

theorem qualifyingChecksums_eq_nil (rows : List (Nat × Option String))
    (h : ∀ p ∈ rows, p.2 = none ∨ p.2 = some "") :
    qualifyingChecksums rows = [] := by
  induction rows with
  | nil => rfl
  | cons p rest ih =>
    have hrest := ih fun q hq => h q (List.mem_cons_of_mem _ hq)
    rcases h p (List.mem_cons_self p rest) with h1 | h1 <;>
      simp [qualifyingChecksums, List.filterMap_cons, h1] <;>
      simpa [qualifyingChecksums] using hrest

/-- C8: for an agency none of whose joined title rows carries a non-null,
non-empty document checksum, the calculation returns "skipped" and leaves
the stored state untouched — no `AgencyChecksum` row is created, in
particular no hash of the empty string is ever stored. -/
theorem agency_without_checksummed_titles_skipped (hash : String → String)
    (rows : List (Nat × Option String)) (stored : Option AgencyChecksumRow)
    (h : ∀ p ∈ rows, p.2 = none ∨ p.2 = some "") :
    calculateAndStoreAgencyChecksum hash rows stored = ("skipped", stored) := by
  have hq : qualifyingChecksums rows = [] := qualifyingChecksums_eq_nil rows h
  simp [calculateAndStoreAgencyChecksum, hq, orderByTitleNumber, List.insertionSort]

/-- Witness for C8: an agency whose two joined rows have a null and an
empty checksum. -/
theorem agency_without_checksummed_titles_skipped_witness :
    calculateAndStoreAgencyChecksum id [(1, none), (2, some "")] none =
      ("skipped", none) :=
  agency_without_checksummed_titles_skipped id [(1, none), (2, some "")] none
    (by decide)

/-- C5: the checksum calculation's change detection — a "skipped" outcome
leaves the stored record unchanged, and re-running the calculation on the
same rows right after a "created" or "updated" outcome yields "skipped"
with the stored record unchanged (the recomputed content hash equals the
one just stored). -/
theorem checksum_change_detection (hash : String → String)
    (rows : List (Nat × Option String)) (stored : Option AgencyChecksumRow) :
    ((calculateAndStoreAgencyChecksum hash rows stored).1 = "created" ∨
        (calculateAndStoreAgencyChecksum hash rows stored).1 = "updated" →
      calculateAndStoreAgencyChecksum hash rows
          (calculateAndStoreAgencyChecksum hash rows stored).2 =
        ("skipped", (calculateAndStoreAgencyChecksum hash rows stored).2)) ∧
    ((calculateAndStoreAgencyChecksum hash rows stored).1 = "skipped" →
      (calculateAndStoreAgencyChecksum hash rows stored).2 = stored) := by
  by_cases he : orderByTitleNumber (qualifyingChecksums rows) = []
  · constructor
    · intro h
      rcases h with h | h <;> simp [calculateAndStoreAgencyChecksum, he] at h
    · intro _
      simp [calculateAndStoreAgencyChecksum, he]
  · cases stored with
    | none =>
      constructor
      · intro _
        simp [calculateAndStoreAgencyChecksum, he]
      · intro h
        simp [calculateAndStoreAgencyChecksum, he] at h
    | some existing =>
      by_cases hh : existing.contentHash =
          hash (buildAgencyContent (orderByTitleNumber (qualifyingChecksums rows)))
      · constructor
        · intro h
          rcases h with h | h <;>
            simp [calculateAndStoreAgencyChecksum, he, hh] at h
        · intro _
          simp [calculateAndStoreAgencyChecksum, he, hh]
      · constructor
        · intro _
          simp [calculateAndStoreAgencyChecksum, he, hh]
        · intro h
          simp [calculateAndStoreAgencyChecksum, he, hh] at h

/-- Witness for C5: one agency row, first run creates, second run skips
and leaves the record alone. -/
theorem checksum_change_detection_witness :
    (calculateAndStoreAgencyChecksum id [(1, some "abc")] none).1 = "created" ∧
    calculateAndStoreAgencyChecksum id [(1, some "abc")]
        (calculateAndStoreAgencyChecksum id [(1, some "abc")] none).2 =
      ("skipped", (calculateAndStoreAgencyChecksum id [(1, some "abc")] none).2) :=
  ⟨by decide,
    (checksum_change_detection id [(1, some "abc")] none).1 (Or.inl (by decide))⟩

/-- A row's dedup key already occurs in a snapshot list. -/
def keyMem (r : SnapshotRow) (snaps : List SnapshotRow) : Prop :=
  snaps.any (sameSnapshotKey r) = true

theorem sameSnapshotKey_refl (r : SnapshotRow) : sameSnapshotKey r r = true := by
  simp [sameSnapshotKey]

theorem keyMem_firstOrCreateSnapshot_self (snaps : List SnapshotRow)
    (r : SnapshotRow) : keyMem r (firstOrCreateSnapshot snaps r) := by
  unfold keyMem firstOrCreateSnapshot
  by_cases h : snaps.any (sameSnapshotKey r) = true
  · rw [if_pos h]
    exact h
  · rw [if_neg h, List.any_append]
    simp [sameSnapshotKey_refl]

theorem keyMem_firstOrCreateSnapshot_mono {x : SnapshotRow}
    {snaps : List SnapshotRow} (r : SnapshotRow) (h : keyMem x snaps) :
    keyMem x (firstOrCreateSnapshot snaps r) := by
  unfold keyMem firstOrCreateSnapshot
  by_cases hr : snaps.any (sameSnapshotKey r) = true
  · rw [if_pos hr]
    exact h
  · rw [if_neg hr]
    unfold keyMem at h
    rw [List.any_append, h, Bool.true_or]

theorem keyMem_upsertSnapshots_mono {x : SnapshotRow} (rows : List SnapshotRow) :
    ∀ snaps, keyMem x snaps → keyMem x (upsertSnapshots snaps rows) := by
  induction rows with
  | nil => exact fun _ h => h
  | cons r rest ih => exact fun snaps h => ih _ (keyMem_firstOrCreateSnapshot_mono r h)

theorem keyMem_upsertSnapshots_of_mem {r : SnapshotRow} {rows : List SnapshotRow}
    (h : r ∈ rows) : ∀ snaps, keyMem r (upsertSnapshots snaps rows) := by
  induction rows with
  | nil => cases h
  | cons x rest ih =>
    rcases List.mem_cons.mp h with rfl | h2
    · exact fun snaps =>
        keyMem_upsertSnapshots_mono rest _ (keyMem_firstOrCreateSnapshot_self snaps r)
    · exact fun snaps => ih h2 _

theorem firstOrCreateSnapshot_eq_of_keyMem {r : SnapshotRow}
    {snaps : List SnapshotRow} (h : keyMem r snaps) :
    firstOrCreateSnapshot snaps r = snaps := by
  have h2 : snaps.any (sameSnapshotKey r) = true := h
  unfold firstOrCreateSnapshot
  rw [if_pos h2]

theorem upsertSnapshots_eq_of_forall_keyMem {snaps : List SnapshotRow}
    {rows : List SnapshotRow} (h : ∀ r ∈ rows, keyMem r snaps) :
    upsertSnapshots snaps rows = snaps := by
  induction rows with
  | nil => rfl
  | cons r rest ih =>
    have h1 := firstOrCreateSnapshot_eq_of_keyMem (h r (List.mem_cons_self r rest))
    show upsertSnapshots (firstOrCreateSnapshot snaps r) rest = snaps
    rw [h1]
    exact ih fun x hx => h x (List.mem_cons_of_mem _ hx)

theorem captureSnapshot_eq_upsert (agencies : List Nat) (refs : List (Nat × Nat))
    (contents : List TitleContentRow) (snaps : List SnapshotRow) :
    captureSnapshot agencies refs contents snaps =
      upsertSnapshots snaps
        (overallRows contents (latestContentDate contents) ++
          agencyRows agencies refs contents (latestContentDate contents) ++
          titleRows contents (latestContentDate contents)) := by
  simp [captureSnapshot, captureOverallSnapshot, captureAgencySnapshots,
    captureTitleSnapshots, upsertSnapshots, List.foldl_append]

/-- C6: re-running `CaptureSnapshot` on the same database state is a
no-op — every overall, per-agency and per-title write is a find-or-create
on the (date, agency-or-null, title-or-null) key, all such keys already
exist after the first run, so the snapshot table (and in particular its
row count) does not change on the repeated run. -/
theorem captureSnapshot_rerun_noop (agencies : List Nat) (refs : List (Nat × Nat))
    (contents : List TitleContentRow) (snaps : List SnapshotRow) :
    captureSnapshot agencies refs contents
        (captureSnapshot agencies refs contents snaps) =
      captureSnapshot agencies refs contents snaps ∧
    (captureSnapshot agencies refs contents
        (captureSnapshot agencies refs contents snaps)).length =
      (captureSnapshot agencies refs contents snaps).length := by
  have h : captureSnapshot agencies refs contents
      (captureSnapshot agencies refs contents snaps) =
      captureSnapshot agencies refs contents snaps := by
    rw [captureSnapshot_eq_upsert agencies refs contents snaps,
      captureSnapshot_eq_upsert agencies refs contents]
    exact upsertSnapshots_eq_of_forall_keyMem fun r hr =>
      keyMem_upsertSnapshots_of_mem hr snaps
  exact ⟨h, by rw [h]⟩

theorem historyPointsGo_map (prev : Option Int) (l : List (String × Int)) :
    (historyPointsGo prev l).map (fun pt => (pt.date, pt.wordCount)) = l := by
  induction l generalizing prev with
  | nil => rfl
  | cons x rest ih =>
    cases x
    simp [historyPointsGo, ih]

theorem historyPointsGo_get (l : List (String × Int)) :
    ∀ (i : Nat) (prev : Option Int) (p q : String × Int),
      l.get? i = some p → l.get? (i + 1) = some q →
      (historyPointsGo prev l).get? (i + 1) =
        some ⟨q.1, q.2,
          if p.2 > 0 then ((q.2 - p.2 : Int) : ℚ) / ((p.2 : Int) : ℚ) * 100 else 0⟩ := by
  induction l with
  | nil =>
    intro i prev p q hp _
    simp at hp
  | cons x rest ih =>
    intro i prev p q hp hq
    cases i with
    | zero =>
      simp only [List.get?_cons_zero, Option.some.injEq] at hp
      subst hp
      cases rest with
      | nil => simp at hq
      | cons y rest2 =>
        simp only [List.get?_cons_succ, List.get?_cons_zero, Option.some.injEq] at hq
        subst hq
        cases x with
        | mk d w =>
          cases y with
          | mk d2 w2 => simp [historyPointsGo]
    | succ j =>
      simp only [List.get?_cons_succ] at hp hq
      cases x with
      | mk d w =>
        have step : (historyPointsGo prev ((d, w) :: rest)).get? (j + 2) =
            (historyPointsGo (some w) rest).get? (j + 1) := by
          simp [historyPointsGo]
        rw [step]
        exact ih j (some w) p q hp hq

/-- C9: the trend computation keeps the query's date-ascending order and
word counts intact; the first point's change percent is 0; every later
point's change percent is the period-over-period change against the
immediately preceding point — `(cur − prev) / prev × 100` when the
preceding word count is positive, else 0; and the word counts
[100, 150, 120] on three consecutive dates produce the percentages
[0, +50, −20]. -/
theorem trend_change_percentages :
    (∀ snapshots : List (String × Int),
      (getHistoryPoints snapshots).map (fun pt => (pt.date, pt.wordCount)) =
        snapshots) ∧
    (∀ snapshots : List (String × Int), ∀ p : String × Int,
      snapshots.get? 0 = some p →
      (getHistoryPoints snapshots).get? 0 = some ⟨p.1, p.2, 0⟩) ∧
    (∀ snapshots : List (String × Int), ∀ (i : Nat) (p q : String × Int),
      snapshots.get? i = some p → snapshots.get? (i + 1) = some q →
      (getHistoryPoints snapshots).get? (i + 1) =
        some ⟨q.1, q.2,
          if p.2 > 0 then ((q.2 - p.2 : Int) : ℚ) / ((p.2 : Int) : ℚ) * 100
          else 0⟩) ∧
    (getHistoryPoints
        [("2024-01-01", 100), ("2024-02-01", 150), ("2024-03-01", 120)]).map
      HistoricalPoint.changePercent = [0, 50, -20] := by
  refine ⟨fun snapshots => historyPointsGo_map none snapshots, ?_, ?_, ?_⟩
  · intro snapshots p hp
    cases snapshots with
    | nil => simp at hp
    | cons x rest =>
      simp only [List.get?_cons_zero, Option.some.injEq] at hp
      subst hp
      cases x with
      | mk d w => simp [getHistoryPoints, historyPointsGo]
  · intro snapshots i p q hp hq
    exact historyPointsGo_get snapshots i none p q hp hq
  · show (historyPointsGo none _).map HistoricalPoint.changePercent = _
    norm_num [historyPointsGo]

/-- Witness for C9 at the spec's three-point example. -/
theorem trend_change_percentages_witness :
    (getHistoryPoints
        [("2024-01-01", 100), ("2024-02-01", 150), ("2024-03-01", 120)]).get? 1 =
      some ⟨"2024-02-01", 150,
        if (100 : Int) > 0 then ((150 - 100 : Int) : ℚ) / ((100 : Int) : ℚ) * 100
        else 0⟩ :=
  trend_change_percentages.2.2.1
    [("2024-01-01", 100), ("2024-02-01", 150), ("2024-03-01", 120)] 0
    ("2024-01-01", 100) ("2024-02-01", 150) (by decide) (by decide)

theorem string_ext_data {s t : String} (h : s.data = t.data) : s = t := by
  cases s
  cases t
  simp_all

theorem pairsOf_cons (n : Nat) (ns : List Nat) (c : Nat → String) :
    pairsOf (n :: ns) c = (n, c n) :: pairsOf ns c := rfl

theorem buildAgencyContent_foldl (l : List (Nat × String)) (acc : String) :
    List.foldl (fun acc tc => acc ++ titleLine tc.1 tc.2) acc l =
      acc ++ buildAgencyContent l := by
  induction l generalizing acc with
  | nil => simp [buildAgencyContent]
  | cons p rest ih =>
    simp only [buildAgencyContent, List.foldl_cons]
    rw [ih, ih]
    simp [String.append_assoc]

theorem buildAgencyContent_cons (p : Nat × String) (l : List (Nat × String)) :
    buildAgencyContent (p :: l) = titleLine p.1 p.2 ++ buildAgencyContent l := by
  simp only [buildAgencyContent, List.foldl_cons]
  rw [buildAgencyContent_foldl]
  simp [buildAgencyContent]

theorem orderedInsert_pairsOf (n : Nat) (ms : List Nat) (c : Nat → String) :
    List.orderedInsert (fun p q : Nat × String => p.1 ≤ q.1) (n, c n) (pairsOf ms c) =
      pairsOf (List.orderedInsert (fun a b => a ≤ b) n ms) c := by
  induction ms with
  | nil => rfl
  | cons m rest ih =>
    rw [pairsOf_cons]
    rw [List.orderedInsert, List.orderedInsert]
    by_cases h : n ≤ m
    · rw [if_pos h, if_pos h, pairsOf_cons, pairsOf_cons]
    · rw [if_neg h, if_neg h, pairsOf_cons, ih]

theorem insertionSort_pairsOf (ns : List Nat) (c : Nat → String) :
    orderByTitleNumber (pairsOf ns c) =
      pairsOf (List.insertionSort (fun a b => a ≤ b) ns) c := by
  induction ns with
  | nil => rfl
  | cons n rest ih =>
    unfold orderByTitleNumber at ih ⊢
    rw [pairsOf_cons, List.insertionSort, List.insertionSort, ih]
    exact orderedInsert_pairsOf n _ c

theorem insertionSort_nat_eq_of_perm {ns ms : List Nat} (h : ns.Perm ms) :
    List.insertionSort (fun a b => a ≤ b) ns =
      List.insertionSort (fun a b => a ≤ b) ms :=
  List.eq_of_perm_of_sorted
    ((List.perm_insertionSort _ ns).trans (h.trans (List.perm_insertionSort _ ms).symm))
    (List.sorted_insertionSort _ ns) (List.sorted_insertionSort _ ms)

theorem newline_append_inj {a b t u : List Char} (ha : ¬ '\n' ∈ a)
    (hb : ¬ '\n' ∈ b) (h : a ++ '\n' :: t = b ++ '\n' :: u) : a = b ∧ t = u := by
  induction a generalizing b with
  | nil =>
    cases b with
    | nil => simpa using h
    | cons y ys =>
      simp only [List.mem_cons, not_or] at hb
      simp only [List.nil_append, List.cons_append, List.cons.injEq] at h
      exact absurd h.1 hb.1
  | cons x xs ih =>
    simp only [List.mem_cons, not_or] at ha
    cases b with
    | nil =>
      simp only [List.cons_append, List.nil_append, List.cons.injEq] at h
      exact absurd h.1.symm ha.1
    | cons y ys =>
      simp only [List.mem_cons, not_or] at hb
      simp only [List.cons_append, List.cons.injEq] at h
      obtain h3 := ih ha.2 hb.2 h.2
      exact ⟨by rw [h.1, h3.1], h3.2⟩

theorem titleLine_append_inj (n : Nat) {x y X Y : String}
    (hx : ¬ '\n' ∈ x.data) (hy : ¬ '\n' ∈ y.data)
    (h : titleLine n x ++ X = titleLine n y ++ Y) : x = y ∧ X = Y := by
  have hd : (titleLine n x ++ X).data = (titleLine n y ++ Y).data := by rw [h]
  simp only [titleLine, String.data_append, List.append_assoc] at hd
  have h3 := List.append_cancel_left (List.append_cancel_left
    (List.append_cancel_left hd))
  simp only [List.singleton_append] at h3
  obtain ⟨e1, e2⟩ := newline_append_inj hx hy h3
  exact ⟨string_ext_data e1, string_ext_data e2⟩

theorem buildAgencyContent_pairsOf_inj (ms : List Nat) (c1 c2 : Nat → String)
    (h1 : ∀ n ∈ ms, ¬ '\n' ∈ (c1 n).data) (h2 : ∀ n ∈ ms, ¬ '\n' ∈ (c2 n).data) :
    (buildAgencyContent (pairsOf ms c1) = buildAgencyContent (pairsOf ms c2) ↔
      ∀ n ∈ ms, c1 n = c2 n) := by
  induction ms with
  | nil => simp [pairsOf, buildAgencyContent]
  | cons n rest ih =>
    have ih2 := ih (fun m hm => h1 m (List.mem_cons_of_mem _ hm))
      (fun m hm => h2 m (List.mem_cons_of_mem _ hm))
    constructor
    · intro h
      rw [pairsOf_cons, pairsOf_cons, buildAgencyContent_cons,
        buildAgencyContent_cons] at h
      obtain ⟨e1, e2⟩ := titleLine_append_inj n
        (h1 n (List.mem_cons_self n rest)) (h2 n (List.mem_cons_self n rest)) h
      intro m hm
      rcases List.mem_cons.mp hm with rfl | hm2
      · exact e1
      · exact (ih2.1 e2) m hm2
    · intro h
      rw [pairsOf_cons, pairsOf_cons, buildAgencyContent_cons, buildAgencyContent_cons,
        h n (List.mem_cons_self n rest),
        ih2.2 (fun m hm => h m (List.mem_cons_of_mem _ hm))]

/-- C1: the agency checksum — the hash of the sorted
`TITLE_<n>:<checksum>` lines — is invariant under any permutation of its
input pairs, and (for an injective hash, the standing model of SHA-256,
and newline-free constituent checksums) two runs over the same title
numbers produce equal agency checksums exactly when every constituent
title checksum is unchanged — it changes if and only if at least one
constituent changes. -/
theorem agencyChecksum_sorted_deterministic (hash : String → String)
    (ns ms : List Nat) (c c1 c2 : Nat → String) :
    (ns.Perm ms →
      agencyChecksum hash (pairsOf ns c) = agencyChecksum hash (pairsOf ms c)) ∧
    (Function.Injective hash →
      (∀ n ∈ ns, ¬ '\n' ∈ (c1 n).data) → (∀ n ∈ ns, ¬ '\n' ∈ (c2 n).data) →
      (agencyChecksum hash (pairsOf ns c1) = agencyChecksum hash (pairsOf ns c2) ↔
        ∀ n ∈ ns, c1 n = c2 n)) := by
  constructor
  · intro hperm
    unfold agencyChecksum
    rw [insertionSort_pairsOf, insertionSort_pairsOf,
      insertionSort_nat_eq_of_perm hperm]
  · intro hinj hn1 hn2
    unfold agencyChecksum
    rw [insertionSort_pairsOf, insertionSort_pairsOf]
    have hmem : ∀ n, n ∈ List.insertionSort (fun a b => a ≤ b) ns ↔ n ∈ ns :=
      fun n => (List.perm_insertionSort _ ns).mem_iff
    have key := buildAgencyContent_pairsOf_inj
      (List.insertionSort (fun a b => a ≤ b) ns) c1 c2
      (fun m hm => hn1 m ((hmem m).1 hm)) (fun m hm => hn2 m ((hmem m).1 hm))
    constructor
    · intro h
      exact fun n hn => (key.1 (hinj h)) n ((hmem n).2 hn)
    · intro h
      rw [key.2 (fun m hm => h m ((hmem m).1 hm))]

/-- Witness for C1: permutation invariance at `[2, 1] ~ [1, 2]`, and the
change-detection equivalence at two constant checksum assignments. -/
theorem agencyChecksum_sorted_deterministic_witness :
    agencyChecksum id (pairsOf [2, 1] (fun n => toString n)) =
        agencyChecksum id (pairsOf [1, 2] (fun n => toString n)) ∧
    (agencyChecksum id (pairsOf [2, 1] (fun _ => "aa")) =
        agencyChecksum id (pairsOf [2, 1] (fun _ => "bb")) ↔
      ∀ n ∈ ([2, 1] : List Nat), (fun _ => "aa") n = (fun _ => "bb") n) :=
  ⟨(agencyChecksum_sorted_deterministic id [2, 1] [1, 2]
      (fun n => toString n) (fun n => toString n) (fun n => toString n)).1
      (by decide),
    (agencyChecksum_sorted_deterministic id [2, 1] [1, 2]
      (fun n => toString n) (fun _ => "aa") (fun _ => "bb")).2
      (fun a b h => h) (by decide) (by decide)⟩

end ECFR
